import Mathlib

set_option linter.unusedVariables false

/-
  Verification of the `tempo` TSDF core (src/python/tempo/tsdf.py) against its
  natural-language specification.

  The development shallowly embeds the relational pipeline that the as-of join
  engine issues against the Spark substrate:

  * a `Value` is a SQL cell value (NULL, integer, double modelled as an exact
    rational, string, or a two-field struct as produced for sub-sequence time
    indices);
  * a `Row` is an association list from column names to values, a `DF` a list
    of rows plus its column list;
  * window functions (`last` with and without null skipping, `count`, `lead`)
    are modelled by partitioning the rows on the partition columns, stably
    sorting each partition by the window ordering and scanning;
  * the `TSDF` wrapper carries the data frame, a time index (simple or
    sub-sequence struct), the series-id column list, and the storage type of
    the primary time column (the value `df.select(ts_col).dtypes[0][1]`
    inspected by `__validateTsColMatch`).

  `tempo/tsschema.py` is not part of the sources; the `TSIndex` / `TSSchema`
  accessors used by `tsdf.py` (`orderByExpr`, `ts_col`, `name`, `renamed`,
  `structural_columns`, `find_observational_columns`, schema validation) are
  modelled from the spec where so noted.

  Python exceptions are modelled with `Except`; each error constructor notes
  the Python exception it stands for.
-/

namespace Tempo

/-- Decidable equality of `Except` results, used to evaluate the embedded
operations on concrete inputs. -/
instance exceptDecEq {ε α : Type} [DecidableEq ε] [DecidableEq α] :
    DecidableEq (Except ε α) := fun a b =>
  match a, b with
  | .ok x, .ok y =>
    if h : x = y then .isTrue (by rw [h]) else .isFalse (by simp [h])
  | .error x, .error y =>
    if h : x = y then .isTrue (by rw [h]) else .isFalse (by simp [h])
  | .ok _, .error _ => .isFalse (by simp)
  | .error _, .ok _ => .isFalse (by simp)

/-- A SQL cell value.  `null` is the SQL NULL.  Doubles are modelled as exact
rationals (all values arising in this development are exactly representable).
`pair` models a two-field struct column, as built by `__combineTSDF` for
sub-sequence time indices (first field: event timestamp, second: sub-sequence). -/
inductive Value where
  | null : Value
  | int : Int → Value
  | str : String → Value
  | rat : Rat → Value
  | pair : Value → Value → Value
deriving DecidableEq

namespace Value

/-- SQL COALESCE of two values. -/
def coalesce (a b : Value) : Value :=
  match a with
  | .null => b
  | v => v

/-- First field of a struct value (NULL on non-structs). -/
def fst : Value → Value
  | .pair a _ => a
  | _ => .null

/-- Second field of a struct value (NULL on non-structs). -/
def snd : Value → Value
  | .pair _ b => b
  | _ => .null

def isNull : Value → Bool
  | .null => true
  | _ => false

/-- Kind rank, used to make the sort order total across kinds. -/
def rank : Value → Nat
  | .null => 0
  | .int _ => 1
  | .rat _ => 2
  | .str _ => 3
  | .pair _ _ => 4

def intOf : Value → Int
  | .int i => i
  | _ => 0

def ratOf : Value → Rat
  | .rat q => q
  | _ => 0

def strOf : Value → String
  | .str s => s
  | _ => ""

end Value

/-- `str.startswith(pfx)`. -/
def strStartsWith (s pfx : String) : Bool := pfx.data.isPrefixOf s.data

/-- Boolean non-membership of a column name in a name list. -/
def notIn (c : String) (l : List String) : Bool := ¬ c ∈ l

/-- Three-way comparison on a linearly ordered type. -/
def cmpLin {α : Type} [LinearOrder α] (a b : α) : Ordering :=
  if a < b then .lt else if b < a then .gt else .eq

/-- Three-way comparison on character lists, by code point. -/
def cmpChars : List Char → List Char → Ordering
  | [], [] => .eq
  | [], _ :: _ => .lt
  | _ :: _, [] => .gt
  | a :: as, b :: bs => (cmpLin a.val.toNat b.val.toNat).then (cmpChars as bs)

/-- Three-way comparison on strings (lexicographic by code point; agrees with
the SQL string order used by Spark).  Written structurally over the character
data so that concrete evaluations reduce. -/
def cmpStr (a b : String) : Ordering := cmpChars a.data b.data

/-- The sort order on values used by the window model: NULLs sort first
(kind rank 0); values of one kind compare by their payload; struct values are
never used directly as sort keys by the embedded code (their fields are
extracted first), so they compare equal among themselves. -/
def Value.ord (a b : Value) : Ordering :=
  (cmpLin a.rank b.rank).then ((cmpLin a.intOf b.intOf).then
    ((cmpLin a.ratOf b.ratOf).then (cmpStr a.strOf b.strOf)))

/-- SQL comparison `a <= b`: false when either side is NULL. -/
def Value.leB (a b : Value) : Bool :=
  if a.isNull || b.isNull then false else a.ord b ≠ .gt

/-- Spark `Column.between(lo, hi)`: inclusive on both ends. -/
def Value.between (a lo hi : Value) : Bool :=
  Value.leB lo a && Value.leB a hi

/-- A row: association list from column names to cell values.  A lookup of an
absent column yields NULL. -/
abbrev Row := List (String × Value)

namespace Row

def get (r : Row) (c : String) : Value :=
  match r.find? (fun p => p.1 = c) with
  | some p => p.2
  | none => .null

/-- Set (or append) a column value, as `DataFrame.withColumn` does. -/
def set (r : Row) (c : String) (v : Value) : Row :=
  if (r.find? (fun p => p.1 = c)).isSome then
    r.map (fun p => if p.1 = c then (p.1, v) else p)
  else
    r ++ [(c, v)]

def dropCol (r : Row) (c : String) : Row :=
  r.filter (fun p => ¬ p.1 = c)

end Row

/-- A data frame: the column list and the rows. -/
structure DF where
  cols : List String
  rows : List Row
deriving DecidableEq

namespace DF

def select (df : DF) (cs : List String) : DF :=
  { cols := cs, rows := df.rows.map (fun r => cs.map (fun c => (c, r.get c))) }

def withColumn (df : DF) (c : String) (f : Row → Value) : DF :=
  { cols := if c ∈ df.cols then df.cols else df.cols ++ [c],
    rows := df.rows.map (fun r => r.set c (f r)) }

def filterRows (df : DF) (p : Row → Bool) : DF :=
  { df with rows := df.rows.filter p }

def dropCol (df : DF) (c : String) : DF :=
  { cols := df.cols.filter (fun x => ¬ x = c),
    rows := df.rows.map (fun r => r.dropCol c) }

def dropCols (df : DF) (cs : List String) : DF :=
  cs.foldl (fun d c => d.dropCol c) df

/-- `DataFrame.unionByName` on frames with identical column sets (the only
way the embedded pipeline uses it: both sides are padded first). -/
def unionByNameRows (df other : DF) : DF :=
  { df with rows := df.rows ++ other.rows }

/-- Positional `DataFrame.union`: the second frame's columns are matched to
the first frame's columns by position. -/
def unionPositional (df other : DF) : DF :=
  { df with
    rows := df.rows ++ other.rows.map (fun r =>
      df.cols.zip (other.cols.map (fun c => r.get c))) }

/-- Equi-join on a list of column names (`DataFrame.join(other, on)`), inner,
left-major: the join columns appear once, then the remaining left columns,
then the remaining right columns. -/
def joinOn (df other : DF) (keys : List String) : DF :=
  { cols := keys ++ df.cols.filter (fun c => notIn c keys) ++
      other.cols.filter (fun c => notIn c keys),
    rows := df.rows.flatMap (fun lr =>
      (other.rows.filter (fun rr =>
          keys.all (fun k => lr.get k == rr.get k))).map (fun rr =>
        keys.map (fun k => (k, lr.get k)) ++
        (df.cols.filter (fun c => notIn c keys)).map (fun c => (c, lr.get c)) ++
        (other.cols.filter (fun c => notIn c keys)).map (fun c => (c, rr.get c)))) }

end DF

/-! ### Window model

Spark window functions are modelled by grouping the rows on the partition
columns, stably sorting each group by the window ordering (ties keep input
order — the "stable, deterministic per execution" ordering the spec demands),
and scanning each sorted group. -/

/-- Lexicographic three-way comparison of the key values of two rows under an
ordering-expression list. -/
def rowOrd (keys : List (Row → Value)) (a b : Row) : Ordering :=
  keys.foldr (fun k acc => (Value.ord (k a) (k b)).then acc) .eq

/-- The (total pre-)order on rows induced by an ordering-expression list. -/
def rowLe (keys : List (Row → Value)) (a b : Row) : Prop :=
  rowOrd keys a b ≠ .gt

instance rowLeDecidable (keys : List (Row → Value)) : DecidableRel (rowLe keys) :=
  fun a b => inferInstanceAs (Decidable (¬ _ = _))

/-- The distinct partition-key values of a row list, in first-appearance
order. -/
def distinctKeys (key : Row → List Value) (rows : List Row) : List (List Value) :=
  rows.foldl (fun acc r => if key r ∈ acc then acc else acc ++ [key r]) []

/-- Group rows by a partition key, keeping the first-appearance order of keys
and the input order inside each group. -/
def partitionGroups (key : Row → List Value) (rows : List Row) : List (List Row) :=
  (distinctKeys key rows).map (fun k => rows.filter (fun r => decide (key r = k)))

/-- Apply a per-partition transformation after stably sorting each partition by
the window ordering; the frame's rows end up grouped by partition, each
partition in window order (Spark leaves the output order unspecified). -/
def windowOver (sids : List String) (keys : List (Row → Value))
    (g : List Row → List Row) (rows : List Row) : List Row :=
  (partitionGroups (fun r => sids.map r.get) rows).flatMap
    (fun grp => g (List.insertionSort (rowLe keys) grp))

/-- Last value of an expression over the rows of a list, skipping NULLs; NULL
if there is none.  (`Fn.last(expr, True)` over an unbounded-preceding frame.) -/
def lastNonNullOf (f : Row → Value) (rs : List Row) : Value :=
  rs.foldl (fun acc r => if (f r).isNull then acc else f r) .null

/-- Last value of a column over the rows of a list, skipping NULLs; NULL if
there is none.  (`Fn.last(col, True)` over an unbounded-preceding frame.) -/
def lastNonNull (col : String) (rs : List Row) : Value :=
  lastNonNullOf (fun r => r.get col) rs

/-- `Fn.last(col, ignoreNulls).over(partitionBy sids, orderBy keys,
rowsBetween(unboundedPreceding, currentRow))`, replacing `col` in place.
Without null skipping the last value of the frame is the current row's own
value. -/
def windowLast (sids : List String) (keys : List (Row → Value))
    (col : String) (ignoreNulls : Bool) (rows : List Row) : List Row :=
  windowOver sids keys
    (fun grp => grp.mapIdx (fun i r =>
      r.set col (if ignoreNulls then lastNonNull col (grp.take (i + 1)) else r.get col)))
    rows

/-- `Fn.count(col)` over the same frame, written to a fresh column. -/
def windowCount (sids : List String) (keys : List (Row → Value))
    (col target : String) (rows : List Row) : List Row :=
  windowOver sids keys
    (fun grp => grp.mapIdx (fun i r =>
      r.set target (.int (((grp.take (i + 1)).filter
        (fun s => ¬ (s.get col).isNull)).length : Int))))
    rows

/-- `Fn.coalesce(Fn.lead(col).over(w), lit default)` written to `target`:
the next row's value of `col` within the partition in window order, or
`default` for the last row (or when the next value is NULL). -/
def windowLeadCoalesce (sids : List String) (keys : List (Row → Value))
    (col target : String) (dflt : Value) (rows : List Row) : List Row :=
  windowOver sids keys
    (fun grp => grp.mapIdx (fun i r =>
      r.set target (match grp[i + 1]? with
        | some nr => (nr.get col).coalesce dflt
        | none => dflt)))
    rows

/-! ### Errors

Python exceptions raised (or modelled) along the embedded code paths. -/

/-- Errors of the embedded operations.  Each constructor notes the Python
exception it stands for. -/
inductive TsdfError where
  /-- `ValueError` raised by `__hasSameSeriesIDs`. -/
  | seriesIdMismatch : TsdfError
  /-- `ValueError` raised by `__validateTsColMatch`. -/
  | tsTypeMismatch : TsdfError
  /-- `ValueError` raised by `__getLastRightRow` when null skipping is
  disabled together with a time-partition value. -/
  | nullSkipWithPartition : TsdfError
  /-- Schema validation failure on `TSDF` construction (modelled from the
  spec: `SchemaMismatchError` when a declared series/time column is absent). -/
  | schemaMismatch : TsdfError
  /-- `TSDFStructureChangeError`. -/
  | structureChange : TsdfError
  /-- Python `TypeError`: a call missing required positional arguments
  (`asOfJoin` invokes `__broadcastAsOfJoin(right)` without the required
  `left_prefix` / `right_prefix`). -/
  | missingArguments : TsdfError
  /-- Python `AttributeError`: an attribute access on a value of the wrong
  type (`__broadcastAsOfJoin` reads `.ts_col` on the plain dicts returned by
  `__prefixedColumnMapping`). -/
  | attributeError : TsdfError
  /-- Spark `AnalysisException` for a positional union of frames with
  different column counts. -/
  | columnCountMismatch : TsdfError
  /-- Spark `AnalysisException` for `unionByName` over different column sets
  without `allowMissingColumns`. -/
  | columnSetMismatch : TsdfError
  /-- Rejection of an invalid option value.  The spec claims such a rejection
  for out-of-range overlap fractions; `tsdf.py` never raises it. -/
  | configurationError : TsdfError
deriving DecidableEq

/-! ### Time index and TSDF -/

/-- Modelled from the spec: `tempo/tsschema.py` is absent from the sources.
A time index is either a simple flat column (`SimpleTSIndex`) or a
sub-sequence struct column with a primary timestamp field and a tie-breaking
sub-sequence field (`SubSequenceTSIndex`). -/
inductive TSIndex where
  | simple (colName : String)
  | subseq (colName tsField subseqField : String)
deriving DecidableEq

namespace TSIndex

/-- The data-frame column occupied by the index (`TSIndex.name`). -/
def name : TSIndex → String
  | .simple c => c
  | .subseq c _ _ => c

/-- `TSIndex.ts_col`: the primary timestamp column name — for a sub-sequence
index this is the *field* name inside the struct (as constructed by
`SubSequenceTSIndex(struct, ts_col, subsequence_col)`). -/
def tsColName : TSIndex → String
  | .simple c => c
  | .subseq _ f _ => f

/-- `TSIndex.renamed(new)`: a new index with the column name substituted. -/
def renamed : TSIndex → String → TSIndex
  | .simple _, n => .simple n
  | .subseq _ f s, n => .subseq n f s

/-- Expression for the primary timestamp (struct-field access for a
sub-sequence index).  Modelled from the spec. -/
def tsExpr : TSIndex → Row → Value
  | .simple c => fun r => r.get c
  | .subseq c _ _ => fun r => (r.get c).fst

/-- Expression for the sub-sequence field (`sub_seq_col`); NULL for a simple
index.  Modelled from the spec. -/
def subseqExpr : TSIndex → Row → Value
  | .simple _ => fun _ => .null
  | .subseq c _ _ => fun r => (r.get c).snd

/-- Modelled from the spec (4.1): `orderByExpr` returns the primary ordering
key, followed by the sub-sequence tie-break key when present.
`SimpleTSIndex` yields a single `Column` (a one-element list here),
`SubSequenceTSIndex` a list. -/
def orderKeys : TSIndex → List (Row → Value)
  | .simple c => [fun r => r.get c]
  | .subseq c _ _ => [fun r => (r.get c).fst, fun r => (r.get c).snd]

def isSubseq : TSIndex → Bool
  | .simple _ => false
  | .subseq _ _ _ => true

end TSIndex

/-- The TSDF wrapper: a data frame, its time index, the series-id columns and
the storage type of the primary time column (the value
`df.select(ts_col).dtypes[0][1]` that `__validateTsColMatch` inspects). -/
structure TSDF where
  df : DF
  tsIndex : TSIndex
  seriesIds : List String
  tsType : String
deriving DecidableEq

namespace TSDF

/-- `TSDF.ts_col`. -/
def tsColName (t : TSDF) : String := t.tsIndex.tsColName

/-- Modelled from the spec: structural columns are the series ids together
with the time column(s) (`TSSchema.structural_columns`). -/
def structuralCols (t : TSDF) : List String := t.seriesIds ++ [t.tsIndex.name]

/-- Modelled from the spec: observational columns are all remaining columns,
in schema order (`TSSchema.find_observational_columns`). -/
def observationalCols (t : TSDF) : List String :=
  t.df.cols.filter (fun c => notIn c t.structuralCols)

/-- Modelled from the spec: `TSSchema.validate` fails when a declared
series/time column is absent from the frame. -/
def validSchema (df : DF) (idx : TSIndex) (sids : List String) : Bool :=
  (sids ++ [idx.name]).all (fun c => decide (c ∈ df.cols))

/-- Validated construction `TSDF(df, ts_col=..., series_ids=...)`: builds a
simple index on `tsCol` and validates the schema against the frame. -/
def mk? (df : DF) (tsCol : String) (sids : List String) (tsType : String) :
    Except TsdfError TSDF :=
  if validSchema df (.simple tsCol) sids then
    .ok { df := df, tsIndex := .simple tsCol, seriesIds := sids, tsType := tsType }
  else .error .schemaMismatch

/-- Validated construction `TSDF(df, ts_schema=TSSchema(idx, sids))`. -/
def mkWithSchema? (df : DF) (idx : TSIndex) (sids : List String) (tsType : String) :
    Except TsdfError TSDF :=
  if validSchema df idx sids then
    .ok { df := df, tsIndex := idx, seriesIds := sids, tsType := tsType }
  else .error .schemaMismatch

/-- `__withTransformedDF`: same schema, new frame, no validation. -/
def withTransformedDF (t : TSDF) (df : DF) : TSDF := { t with df := df }

/-- `__withStandardizedColOrder`: series ids, then the time index column,
then the observational columns. -/
def withStandardizedColOrder (t : TSDF) : TSDF :=
  t.withTransformedDF
    (t.df.select (t.seriesIds ++ [t.tsIndex.name] ++ t.observationalCols))

/-- `TSDF.withColumn`: refuses to touch a structural column, otherwise adds or
replaces the column on the underlying frame. -/
def withColumn (t : TSDF) (c : String) (f : Row → Value) : Except TsdfError TSDF :=
  if c ∈ t.structuralCols then .error .structureChange
  else .ok (t.withTransformedDF (t.df.withColumn c f))

/-- Replace the first occurrence of `a` by `b`
(`lst[lst.index(a)] = b`). -/
def replaceFirst : List String → String → String → List String
  | [], _, _ => []
  | x :: xs, a, b => if x = a then b :: xs else x :: replaceFirst xs a b

/-- `TSDF.withColumnRenamed`, with its side effect made explicit.  The source
aliases the schema's series-id list (`new_series_ids = self.series_ids`) and
assigns into it in place, so renaming a series-id column also mutates the
*receiver's* schema.  The first component is the returned TSDF, the second the
receiver after the call. -/
def withColumnRenamedEffect (t : TSDF) (existing new : String) :
    Except TsdfError (TSDF × TSDF) :=
  let newIdx := if existing = t.tsIndex.name then t.tsIndex.renamed new else t.tsIndex
  let newSids :=
    if existing ∈ t.seriesIds then replaceFirst t.seriesIds existing new
    else t.seriesIds
  let newDf : DF :=
    { cols := t.df.cols.map (fun c => if c = existing then new else c),
      rows := t.df.rows.map (fun r =>
        r.map (fun p => if p.1 = existing then (new, p.2) else p)) }
  (mkWithSchema? newDf newIdx newSids t.tsType).map
    (fun res => (res, { t with seriesIds := newSids }))

/-- `TSDF.withColumnRenamed` as used functionally by the join pipeline (the
mutated receiver of an intermediate value is discarded). -/
def withColumnRenamed (t : TSDF) (existing new : String) : Except TsdfError TSDF :=
  (t.withColumnRenamedEffect existing new).map (fun p => p.1)

/-- `TSDF.select`: requires every structural column to be among the selected
names, else `TSDFStructureChangeError`. -/
def select (t : TSDF) (cs : List String) : Except TsdfError TSDF :=
  if t.structuralCols.all (fun c => decide (c ∈ cs)) then
    .ok (t.withTransformedDF (t.df.select cs))
  else .error .structureChange

/-- `TSDF.union`: positional union of the underlying frames; no compatibility
validation beyond Spark's column-count requirement. -/
def union (t other : TSDF) : Except TsdfError TSDF :=
  if t.df.cols.length = other.df.cols.length then
    .ok (t.withTransformedDF (t.df.unionPositional other.df))
  else .error .columnCountMismatch

/-- `TSDF.unionByName`: by-name union of the underlying frames; no
compatibility validation beyond Spark's column-set requirement (relaxed by
`allowMissingColumns`, which pads the missing columns with NULL). -/
def unionByName (t other : TSDF) (allowMissingColumns : Bool) : Except TsdfError TSDF :=
  if allowMissingColumns then
    .ok (t.withTransformedDF
      { cols := t.df.cols ++ other.df.cols.filter (fun c => notIn c t.df.cols),
        rows := t.df.rows ++ other.df.rows })
  else if t.df.cols.all (fun c => decide (c ∈ other.df.cols)) &&
          other.df.cols.all (fun c => decide (c ∈ t.df.cols)) then
    .ok (t.withTransformedDF { t.df with rows := t.df.rows ++ other.df.rows })
  else .error .columnSetMismatch

/-! ### As-of join helpers -/

/-- `__hasSameSeriesIDs`: pairwise comparison over `zip` — a strict-prefix
relationship between the two series-id lists passes unnoticed. -/
def hasSameSeriesIDs (t right : TSDF) : Except TsdfError Unit :=
  if (t.seriesIds.zip right.seriesIds).all (fun p => p.1 == p.2) then .ok ()
  else .error .seriesIdMismatch

/-- `__validateTsColMatch`: the storage types of the two primary time columns
must coincide. -/
def validateTsColMatch (t right : TSDF) : Except TsdfError Unit :=
  if t.tsType = right.tsType then .ok () else .error .tsTypeMismatch

/-- `__addPrefixToAllColumns`: rename every non-series column to
`prefix_col`; no-op for an unset or empty prefix. -/
def addPrefixToAllColumns (t : TSDF) (pfx : Option String) : Except TsdfError TSDF :=
  match pfx with
  | none => .ok t
  | some p =>
    if p = "" then .ok t
    else
      (t.df.cols.filter (fun c => notIn c t.seriesIds)).foldlM
        (fun acc c => acc.withColumnRenamed c (p ++ "_" ++ c)) t

/-- `__addMissingColumnsFrom`: add the other frame's missing columns as NULL
literals (via `TSDF.withColumn`, hence subject to the structural check). -/
def addMissingColumnsFrom (t other : TSDF) : Except TsdfError TSDF :=
  (other.df.cols.filter (fun c => notIn c t.df.cols)).foldlM
    (fun acc c => acc.withColumn c (fun _ => .null)) t

/-- `__findCommonColumns`: columns present on both sides, minus the series
ids unless requested. -/
def findCommonColumns (t other : TSDF) (includeSeriesIds : Bool) : List String :=
  let common := t.df.cols.filter (fun c => decide (c ∈ other.df.cols))
  if includeSeriesIds then common
  else common.filter (fun c =>
    ¬ (decide (c ∈ t.seriesIds) || decide (c ∈ other.seriesIds)))

/-- `__combineTSDF`: pad both sides with the other's columns as NULL, union
by name, coalesce a combined time index (a struct one if either side carries
a sub-sequence), and put the columns into `(series_ids, combined_ts,
left_cols, right_cols)` order. -/
def combineTSDF (t right : TSDF) (combinedTsCol : String) : Except TsdfError TSDF := do
  let leftPadded ← t.addMissingColumnsFrom right
  let rightPadded ← right.addMissingColumnsFrom t
  let combined := leftPadded.df.unionByNameRows rightPadded.df
  let isLeftSubseq := t.tsIndex.isSubseq
  let isRightSubseq := right.tsIndex.isSubseq
  let (combinedDf, newIdx) :=
    if isLeftSubseq || isRightSubseq then
      let primarySubseqExpr :=
        if isLeftSubseq then t.tsIndex.subseqExpr else right.tsIndex.subseqExpr
      let secondarySubseqExpr :=
        if isLeftSubseq && isRightSubseq then right.tsIndex.subseqExpr
        else fun (_ : Row) => Value.null
      (combined.withColumn combinedTsCol (fun r =>
          .pair ((t.tsIndex.tsExpr r).coalesce (right.tsIndex.tsExpr r))
                ((primarySubseqExpr r).coalesce (secondarySubseqExpr r))),
       TSIndex.subseq combinedTsCol "event_ts" "sub_seq")
    else
      (combined.withColumn combinedTsCol (fun r =>
          (r.get t.tsColName).coalesce (r.get right.tsColName)),
       TSIndex.simple combinedTsCol)
  let baseCols := t.seriesIds ++ [combinedTsCol]
  let leftCols := t.df.cols.filter (fun c => notIn c baseCols)
  let rightCols := right.df.cols.filter (fun c => notIn c baseCols)
  mkWithSchema? (combinedDf.select (baseCols ++ leftCols ++ rightCols))
    newIdx t.seriesIds t.tsType

/-- The left-origin indicator column added by `__getLastRightRow`. -/
def recIndCol : String := "rec_ind"

/-- The indicator ordering expression. -/
def recIndExpr : Row → Value := fun r => r.get recIndCol

/-- The splicing of the indicator into the ordering-expression list performed
by `__getLastRightRow`: for a single `Column` the result is `[key,
indicator]`; for a list the code rebinds the name and extends the *new*
two-element list with its own tail (`order_by_expr.extend(order_by_expr[1:])`),
yielding `[primary, indicator, indicator]` — the remaining index keys (the
sub-sequence) are lost. -/
def spliceIndicatorKeys (orderKeys : List (Row → Value)) (ind : Row → Value) :
    List (Row → Value) :=
  match orderKeys with
  | [e] => [e, ind]
  | e0 :: _ :: _ =>
    let obe := [e0, ind]
    obe ++ obe.drop 1
  | [] => []

/-- The core of `__getLastRightRow`, parametrised by the window ordering keys
(built by the caller from the combined index's `orderByExpr` and the
indicator).  Adds the indicator, computes for each right-hand column the last
value over an unbounded-preceding-to-current window per series partition
(struct-wrapping left-originated gaps when `ignoreNulls` is off, plus
non-null counts when a partition value is given), keeps left-originated rows,
drops the combined time column and the indicator, and rebuilds a validated
TSDF around the left timestamp column in standardized column order. -/
def getLastRightRowKeyed (t : TSDF) (keys : List (Row → Value))
    (leftTsCol : String) (rightCols : List String) (tsPartitionVal : Option Int)
    (ignoreNulls : Bool) : Except TsdfError TSDF := do
  let unreduced ← t.withColumn recIndCol (fun r =>
    if (r.get leftTsCol).isNull then .int (-1) else .int 1)
  let sids := unreduced.seriesIds
  let windowed : DF ← do
    if ignoreNulls = false then
      if tsPartitionVal.isSome then
        throw TsdfError.nullSkipWithPartition
      else
        let wrapped := rightCols.foldl
          (fun (d : DF) c =>
            let newRows := windowOver sids keys
              (fun grp => grp.mapIdx (fun i r =>
                r.set c (lastNonNullOf
                  (fun s => if s.get recIndCol = .int (-1)
                            then .pair (s.get c) .null else .null)
                  (grp.take (i + 1)))))
              d.rows
            { d with rows := newRows })
          unreduced.df
        pure (rightCols.foldl
          (fun (d : DF) c => d.withColumn c (fun r => (r.get c).fst)) wrapped)
    else
      match tsPartitionVal with
      | none =>
        pure (rightCols.foldl
          (fun (d : DF) c => { d with rows := windowLast sids keys c true d.rows })
          unreduced.df)
      | some _ =>
        pure (rightCols.foldl
          (fun (d : DF) c =>
            let filled : DF := { d with rows := windowLast sids keys c true d.rows }
            { cols := if ("non_null_ct" ++ c) ∈ filled.cols then filled.cols
                      else filled.cols ++ ["non_null_ct" ++ c],
              rows := windowCount sids keys c ("non_null_ct" ++ c) filled.rows })
          unreduced.df)
  let reduced := ((windowed.filterRows (fun r => ¬ (r.get leftTsCol).isNull)).dropCol
      unreduced.tsColName).dropCol recIndCol
  let reduced :=
    if tsPartitionVal.isSome then
      reduced.dropCols (reduced.cols.filter (fun c => strStartsWith c "non_null"))
    else reduced
  let res ← mk? reduced leftTsCol t.seriesIds t.tsType
  pure res.withStandardizedColOrder

/-- `__getLastRightRow` proper: the ordering keys are the combined index's
`orderByExpr` with the indicator spliced in.  The `suppress_null_warning`
argument only controls logging and has no effect on the data. -/
def getLastRightRow (t : TSDF) (leftTsCol : String) (rightCols : List String)
    (tsPartitionVal : Option Int) (ignoreNulls : Bool)
    (suppressNullWarning : Bool) : Except TsdfError TSDF :=
  t.getLastRightRowKeyed (spliceIndicatorKeys t.tsIndex.orderKeys recIndExpr)
    leftTsCol rightCols tsPartitionVal ignoreNulls

end TSDF

/-! ### Time partitioner and join strategies -/

/-- Division of a rational by an integer, via the normalising `mkRat`
constructor (the field operations of `Rat` itself do not reduce inside the
kernel, which the concrete evaluations below require). -/
def ratDivInt (q : Rat) (w : Int) : Rat :=
  if 0 ≤ w then mkRat q.num (q.den * w.toNat)
  else mkRat (- q.num) (q.den * (- w).toNat)

/-- Subtraction of an integer from a rational, via `mkRat`. -/
def ratSubInt (q : Rat) (b : Int) : Rat :=
  mkRat (q.num - b * (q.den : Int)) q.den

/-- `1 - f`, via `mkRat`. -/
def ratOneSub (f : Rat) : Rat :=
  mkRat ((f.den : Int) - f.num) f.den

/-- Boolean `a <= b` on rationals by cross-multiplication (denominators are
positive). -/
def ratLeB (a b : Rat) : Bool :=
  a.num * (b.den : Int) ≤ b.num * (a.den : Int)

/-- Spark `cast("double")` of a cell (timestamps are already modelled as
numeric epoch values). -/
def Value.castDouble : Value → Value
  | .int i => .rat (mkRat i 1)
  | .rat q => .rat q
  | _ => .null

/-- Spark `cast("integer")` of a double: truncation toward zero. -/
def ratTrunc (q : Rat) : Int := Int.tdiv q.num (q.den : Int)

namespace TSDF

/-- `__getTimePartitions`: cast the primary time value to double, assign each
row the bucket `tsPartitionVal * int(time / tsPartitionVal)` (`cast("integer")`
truncates toward zero), tag it `is_original = 1`, and duplicate the rows whose
`(time - bucket) / tsPartitionVal` remainder is at least `1 - fraction` into
the next bucket with `is_original = 0`.  The result's series ids are extended
with the synthetic `ts_partition` column.  (The `.cache()` call has no
semantic effect.) -/
def getTimePartitions (t : TSDF) (tsPartitionVal : Int) (fraction : Rat) :
    Except TsdfError TSDF :=
  let partitionDf :=
    (((t.df.withColumn "ts_col_double" (fun r => (r.get t.tsColName).castDouble)).withColumn
        "ts_partition" (fun r =>
          match r.get "ts_col_double" with
          | .rat q => .int (tsPartitionVal * ratTrunc (ratDivInt q tsPartitionVal))
          | _ => .null)).withColumn
      "partition_remainder" (fun r =>
        match r.get "ts_col_double", r.get "ts_partition" with
        | .rat q, .int b => .rat (ratDivInt (ratSubInt q b) tsPartitionVal)
        | _, _ => .null)).withColumn "is_original" (fun _ => .int 1)
  let remainderDf :=
    ((partitionDf.filterRows (fun r =>
        match r.get "partition_remainder" with
        | .rat m => ratLeB (ratOneSub fraction) m
        | _ => false)).withColumn
      "ts_partition" (fun r =>
        match r.get "ts_partition" with
        | .int b => .int (b + tsPartitionVal)
        | _ => .null)).withColumn "is_original" (fun _ => .int 0)
  let df := ((partitionDf.unionPositional remainderDf).dropCol
      "partition_remainder").dropCol "ts_col_double"
  mk? df t.tsColName (t.seriesIds ++ ["ts_partition"]) t.tsType

/-- `__prefixedColumnMapping`: an old → new column-name mapping with the
given prefix applied — a plain Python dict, not a TSDF. -/
def prefixedColumnMapping (colList : List String) (pfx : String) :
    List (String × String) :=
  if pfx = "" then colList.map (fun c => (c, c))
  else colList.map (fun c => (c, pfx ++ "_" ++ c))

/-- `__broadcastAsOfJoin`: computes the common non-series columns and their
prefix *mappings* — plain dicts — and assigns them to `left_prefixed_tsdf` /
`right_prefixed_tsdf`, then reads `right_prefixed_tsdf.ts_col`: an attribute
access on a dict, so every call raises `AttributeError` before any upper
bound or join is computed.  The interval-join plan of the remaining lines
(the lead-based upper bound and the inclusive `between` join) is dead
code. -/
def broadcastAsOfJoin (t right : TSDF) (leftPrefix rightPrefix : String) :
    Except TsdfError TSDF :=
  let commonNonSeriesCols := t.findCommonColumns right false
  let leftPrefixedTsdf := prefixedColumnMapping commonNonSeriesCols leftPrefix
  let rightPrefixedTsdf :=
    prefixedColumnMapping commonNonSeriesCols rightPrefix
  throw .attributeError

/-- The `fraction` default of `__skewAsOfJoin` (`fraction=0.1`), used for
every dispatch from `asOfJoin`, which never forwards its own `fraction`. -/
def skewFractionDefault : Rat := mkRat 1 10

/-- `__skewAsOfJoin`: prefix, combine, time-partition, resolve the last right
rows per `(series, bucket)` group, drop the overlap duplicates and the
partition bookkeeping columns — but rebuild the result TSDF with
`series_ids=asofDF.series_ids`, which still contains `ts_partition` although
that column was just dropped. -/
def skewAsOfJoin (t right : TSDF) (leftPfx rightPfx : Option String)
    (tsPartitionVal : Int) (fraction : Rat) (skipNulls : Bool)
    (suppressNullWarning : Bool) : Except TsdfError TSDF := do
  let leftPrefixed ← t.addPrefixToAllColumns leftPfx
  let rightPrefixed ← right.addPrefixToAllColumns rightPfx
  let combined ← leftPrefixed.combineTSDF rightPrefixed "combined_ts"
  let tsPartitionTsdf ← combined.getTimePartitions tsPartitionVal fraction
  let rightCols := rightPrefixed.df.cols.filter
    (fun c => notIn c combined.seriesIds)
  let asof ← tsPartitionTsdf.getLastRightRow leftPrefixed.tsColName rightCols
    (some tsPartitionVal) skipNulls suppressNullWarning
  let df := (((asof.df.filterRows (fun r =>
      r.get "is_original" == .int 1)).dropCol "ts_partition").dropCol "is_original")
  mk? df asof.tsColName asof.seriesIds asof.tsType

/-- `__standardAsOfJoin`: prefix, combine, resolve the last right rows per
series. -/
def standardAsOfJoin (t right : TSDF) (leftPfx rightPfx : Option String)
    (skipNulls : Bool) (suppressNullWarning : Bool) : Except TsdfError TSDF := do
  let leftPrefixed ← t.addPrefixToAllColumns leftPfx
  let rightPrefixed ← right.addPrefixToAllColumns rightPfx
  let combined ← leftPrefixed.combineTSDF rightPrefixed "combined_ts"
  let rightCols := rightPrefixed.df.cols.filter
    (fun c => notIn c combined.seriesIds)
  combined.getLastRightRow leftPrefixed.tsColName rightCols none skipNulls
    suppressNullWarning

/-- The broadcast size threshold of `asOfJoin`: 30 MiB. -/
def bytesThreshold : Nat := 30 * 1024 * 1024

/-- `TSDF.asOfJoin`.  `leftBytes` / `rightBytes` stand for the substrate's
plan-size estimates (`__getBytesFromPlan`).  After the series-id and
time-type validations, a requested (`sql_join_opt`) and size-eligible
broadcast join executes `self.__broadcastAsOfJoin(right)` — a call missing
the two required prefix arguments, hence a Python `TypeError`.  Otherwise a
given `tsPartitionVal` selects the skew join — invoked *without* the caller's
`fraction`, so the skew path always runs with its own `fraction=0.1` default
— and the standard join runs in the remaining case. -/
def asOfJoin (t right : TSDF) (leftPfx : Option String) (rightPfx : Option String)
    (tsPartitionVal : Option Int) (fraction : Rat) (skipNulls : Bool)
    (sqlJoinOpt : Bool) (suppressNullWarning : Bool)
    (leftBytes rightBytes : Nat) : Except TsdfError TSDF := do
  let _ ← t.hasSameSeriesIDs right
  let _ ← t.validateTsColMatch right
  if sqlJoinOpt && (decide (leftBytes < bytesThreshold) ||
                    decide (rightBytes < bytesThreshold)) then
    throw TsdfError.missingArguments
  else
    match tsPartitionVal with
    | none =>
      t.standardAsOfJoin right leftPfx rightPfx skipNulls suppressNullWarning
    | some w =>
      t.skewAsOfJoin right leftPfx rightPfx w skewFractionDefault skipNulls
        suppressNullWarning

end TSDF

/-! ### Concrete example tables

Small tables used to evaluate the embedded operations on concrete inputs. -/

/-- A single-series left table with timestamps 1..4 (the carry-forward
example of the spec). -/
def leftNums : TSDF :=
  { df := { cols := ["ts"],
            rows := [[("ts", .int 1)], [("ts", .int 2)],
                     [("ts", .int 3)], [("ts", .int 4)]] },
    tsIndex := .simple "ts", seriesIds := [], tsType := "long" }

/-- A single-series right table with (timestamp, value) rows (1, "a") and
(3, "b"). -/
def rightLetters : TSDF :=
  { df := { cols := ["ts", "value"],
            rows := [[("ts", .int 1), ("value", .str "a")],
                     [("ts", .int 3), ("value", .str "b")]] },
    tsIndex := .simple "ts", seriesIds := [], tsType := "long" }

/-- A left table with one series id column and a single row at timestamp 3. -/
def leftOneRow : TSDF :=
  { df := { cols := ["id", "ts"], rows := [[("id", .str "A"), ("ts", .int 3)]] },
    tsIndex := .simple "ts", seriesIds := ["id"], tsType := "long" }

/-- A right table with rows (1, "a") and (3, "b") in series "A"; its time
column is named `rts` so that broadcast-join columns do not collide. -/
def rightTwoRows : TSDF :=
  { df := { cols := ["id", "rts", "rval"],
            rows := [[("id", .str "A"), ("rts", .int 1), ("rval", .str "a")],
                     [("id", .str "A"), ("rts", .int 3), ("rval", .str "b")]] },
    tsIndex := .simple "rts", seriesIds := ["id"], tsType := "long" }

/-- A one-row table whose timestamp is negative (an epoch instant before
1970). -/
def negativeTs : TSDF :=
  { df := { cols := ["ts"], rows := [[("ts", .int (-5))]] },
    tsIndex := .simple "ts", seriesIds := [], tsType := "long" }

/-- A table with one series-id column `station`. -/
def stationT : TSDF :=
  { df := { cols := ["station", "ts", "temp"],
            rows := [[("station", .str "s1"), ("ts", .int 1), ("temp", .int 20)]] },
    tsIndex := .simple "ts", seriesIds := ["station"], tsType := "long" }

/-- A table whose single series id is named differently from `stationT`. -/
def siteT : TSDF :=
  { df := { cols := ["site", "ts", "temp"],
            rows := [[("site", .str "x"), ("ts", .int 2), ("temp", .int 30)]] },
    tsIndex := .simple "ts", seriesIds := ["site"], tsType := "long" }

/-- A table whose series ids strictly extend `stationT`'s list. -/
def stationRegionT : TSDF :=
  { df := { cols := ["station", "region", "ts", "temp"],
            rows := [[("station", .str "s1"), ("region", .str "r1"),
                      ("ts", .int 1), ("temp", .int 25)]] },
    tsIndex := .simple "ts", seriesIds := ["station", "region"], tsType := "long" }

/-- A table with the columns and series id of `stationT` but a `double`
time column type. -/
def stationDoubleT : TSDF :=
  { df := { cols := ["station", "ts", "temp"],
            rows := [[("station", .str "s1"), ("ts", .int 3),
                      ("temp", .int 22)]] },
    tsIndex := .simple "ts", seriesIds := ["station"], tsType := "double" }

/-- The literal right table after prefixing every column with `right_`. -/
def rightLettersPfx : TSDF :=
  { df := { cols := ["right_ts", "right_value"],
            rows := [[("right_ts", .int 1), ("right_value", .str "a")],
                     [("right_ts", .int 3), ("right_value", .str "b")]] },
    tsIndex := .simple "right_ts", seriesIds := [], tsType := "long" }

/-- The literal combined frame of `leftNums` and `rightLettersPfx`: left rows
with null right columns, then right rows with a null left timestamp, all
sharing the coalesced `combined_ts` index. -/
def combinedLit : TSDF :=
  { df := { cols := ["combined_ts", "ts", "right_ts", "right_value"],
            rows := [[("combined_ts", .int 1), ("ts", .int 1),
                      ("right_ts", .null), ("right_value", .null)],
                     [("combined_ts", .int 2), ("ts", .int 2),
                      ("right_ts", .null), ("right_value", .null)],
                     [("combined_ts", .int 3), ("ts", .int 3),
                      ("right_ts", .null), ("right_value", .null)],
                     [("combined_ts", .int 4), ("ts", .int 4),
                      ("right_ts", .null), ("right_value", .null)],
                     [("combined_ts", .int 1), ("ts", .null),
                      ("right_ts", .int 1), ("right_value", .str "a")],
                     [("combined_ts", .int 3), ("ts", .null),
                      ("right_ts", .int 3), ("right_value", .str "b")]] },
    tsIndex := .simple "combined_ts", seriesIds := [], tsType := "long" }

/-- A combined frame over a sub-sequence index: one left-originated row
(struct index `(1, 1)`, left timestamp present) and one right-originated row
(struct index `(1, 2)`, right value "a").  The primary timestamps tie; the
sub-sequence places the left row *before* the right row, while the indicator
places the right row first. -/
def c4Combined : TSDF :=
  { df := { cols := ["combined_ts", "ts", "rts", "rval"],
            rows := [[("combined_ts", .pair (.int 1) (.int 1)), ("ts", .int 1),
                      ("rts", .null), ("rval", .null)],
                     [("combined_ts", .pair (.int 1) (.int 2)), ("ts", .null),
                      ("rts", .int 1), ("rval", .str "a")]] },
    tsIndex := .subseq "combined_ts" "event_ts" "seq", seriesIds := [],
    tsType := "long" }

/-! ### Formulas of the amended time-partitioner claim -/

/-- The numeric time value of a row (the claim's "cast the primary time value
to a numeric form"). -/
def specTime (t : TSDF) (r : Row) : Rat := ((r.get t.tsColName).castDouble).ratOf

/-- The bucket of the amended claim: `partitionWidth` times the toward-zero
truncation of `time / partitionWidth` (the original claim says `floor`). -/
def specBucket (w : Int) (q : Rat) : Int := w * ratTrunc (q / (w : Rat))

/-- The overlap remainder of the claim: `(time - bucket) / partitionWidth`. -/
def specRemainder (w : Int) (q : Rat) : Rat :=
  (q - (specBucket w q : Rat)) / (w : Rat)

/-! ### Helper lemmas -/

theorem ratDivInt_eq_div (q : Rat) (w : Int) (hw : w ≠ 0) :
    ratDivInt q w = q / (w : Rat) := by
  unfold ratDivInt
  split_ifs with h
  · have hcast : ((w.toNat : Nat) : Rat) = (w : Rat) := by
      rw [← Int.cast_natCast, Int.toNat_of_nonneg h]
    rw [Rat.mkRat_eq_div]
    push_cast
    rw [hcast, div_mul_eq_div_div, Rat.num_div_den]
  · push_neg at h
    have hcast : (((-w).toNat : Nat) : Rat) = -(w : Rat) := by
      rw [← Int.cast_natCast, Int.toNat_of_nonneg (by omega : (0 : Int) ≤ -w)]
      push_cast
      ring
    rw [Rat.mkRat_eq_div]
    push_cast
    rw [hcast, div_mul_eq_div_div, neg_div, Rat.num_div_den, neg_div, div_neg,
      neg_neg]

theorem ratDenNeZero (q : Rat) : ((q.den : Rat)) ≠ 0 := by
  exact_mod_cast q.den_nz

theorem ratSubInt_eq_sub (q : Rat) (b : Int) :
    ratSubInt q b = q - (b : Rat) := by
  unfold ratSubInt
  rw [Rat.mkRat_eq_div]
  push_cast
  rw [sub_div, Rat.num_div_den]
  congr 1
  rw [mul_div_assoc, div_self (ratDenNeZero q), mul_one]

theorem ratOneSub_eq (f : Rat) : ratOneSub f = 1 - f := by
  unfold ratOneSub
  rw [Rat.mkRat_eq_div]
  push_cast
  rw [sub_div, Rat.num_div_den, div_self (ratDenNeZero f)]

theorem ratLeB_iff (a b : Rat) : ratLeB a b = true ↔ a ≤ b := by
  unfold ratLeB
  rw [decide_eq_true_eq, Rat.le_def]

theorem findReplaceKey (l : List (String × Value)) (c : String) (v : Value) :
    (l.map (fun p => if p.1 = c then (p.1, v) else p)).find? (fun p => p.1 = c) =
      (l.find? (fun p => p.1 = c)).map (fun p => (p.1, v)) := by
  induction l with
  | nil => rfl
  | cons p rest ih =>
    by_cases hp : p.1 = c
    · simp [List.find?_cons, hp]
    · simp [List.find?_cons, hp, ih]

theorem findMapKeep (l : List (String × Value)) (c c' : String) (v : Value)
    (hne : c' ≠ c) :
    (l.map (fun p => if p.1 = c then (p.1, v) else p)).find? (fun p => p.1 = c') =
      ((l.find? (fun p => p.1 = c')).map (fun p => if p.1 = c then (p.1, v) else p)) := by
  induction l with
  | nil => rfl
  | cons p rest ih =>
    simp only [List.map_cons, List.find?_cons]
    by_cases hp : p.1 = c
    · rw [if_pos hp]
      have h1 : (decide ((p.1, v).1 = c')) = false := by
        simp only [decide_eq_false_iff_not]
        rw [hp]
        exact fun h => hne h.symm
      have h2 : (decide (p.1 = c')) = false := by
        simp only [decide_eq_false_iff_not]
        rw [hp]
        exact fun h => hne h.symm
      simp only [h1, h2]
      exact ih
    · rw [if_neg hp]
      by_cases hq : p.1 = c'
      · have h1 : (decide (p.1 = c')) = true := by simp [hq]
        simp only [h1]
        simp [hp]
      · have h1 : (decide (p.1 = c')) = false := by simp [hq]
        simp only [h1]
        exact ih

theorem getSetSelf (r : Row) (c : String) (v : Value) :
    (r.set c v).get c = v := by
  unfold Row.set Row.get
  split_ifs with h
  · rw [findReplaceKey]
    obtain ⟨p, hp⟩ := Option.isSome_iff_exists.mp h
    simp [hp]
  · rw [List.find?_append]
    rw [Option.not_isSome_iff_eq_none] at h
    simp [h, List.find?_cons]

theorem getSetNe (r : Row) (c c' : String) (v : Value) (hne : c' ≠ c) :
    (r.set c v).get c' = r.get c' := by
  unfold Row.set Row.get
  split_ifs with h
  · rw [findMapKeep _ _ _ _ hne]
    cases hf : r.find? (fun p => p.1 = c') with
    | none => simp
    | some p =>
      have hp' : p.1 = c' := by
        have := List.find?_some hf
        simpa using this
      have : ¬ p.1 = c := by rw [hp']; exact hne
      simp [this]
  · rw [List.find?_append]
    cases hf : r.find? (fun p => p.1 = c') with
    | none =>
      have hcc : (decide (c = c')) = false := by
        simp only [decide_eq_false_iff_not]
        exact fun h => hne h.symm
      simp [hf, List.find?_cons, hcc]
    | some p => simp [hf]

theorem getDropColNe (r : Row) (c c' : String) (hne : c' ≠ c) :
    (r.dropCol c).get c' = r.get c' := by
  unfold Row.dropCol Row.get
  induction r with
  | nil => rfl
  | cons p rest ih =>
    simp only [List.filter_cons]
    by_cases hp : p.1 = c
    · have hp2 : (decide ¬ p.1 = c) = false := by simp [hp]
      have hp' : (decide (p.1 = c')) = false := by
        simp only [decide_eq_false_iff_not]
        rw [hp]
        exact fun h => hne h.symm
      simp only [hp2, Bool.false_eq_true, if_false, List.find?_cons, hp']
      exact ih
    · have hp2 : (decide ¬ p.1 = c) = true := by simp [hp]
      by_cases hq : p.1 = c'
      · have hq2 : (decide (p.1 = c')) = true := by simp [hq]
        simp only [hp2, if_true, List.find?_cons, hq2]
      · have hq2 : (decide (p.1 = c')) = false := by simp [hq]
        simp only [hp2, if_true, List.find?_cons, hq2]
        exact ih

theorem getZipCols (cols : List String) (r : Row) (c : String) (hc : c ∈ cols) :
    Row.get (cols.zip (cols.map (fun c => r.get c))) c = r.get c := by
  induction cols with
  | nil => simp at hc
  | cons d rest ih =>
    by_cases hd : d = c
    · subst hd
      simp [Row.get, List.find?_cons]
    · have : c ∈ rest := by
        cases hc with
        | head => exact absurd rfl hd
        | tail _ h => exact h
      simp only [List.map_cons, List.zip_cons_cons, Row.get, List.find?_cons]
      have hdc : (decide (d = c)) = false := by simp [hd]
      simp only [hdc]
      exact ih this

theorem mapFilterCongr {α β : Type} {p q : α → Bool} {f g : α → β} :
    ∀ l : List α, (∀ a ∈ l, p a = q a ∧ f a = g a) →
      (l.filter p).map f = (l.filter q).map g := by
  intro l h
  induction l with
  | nil => rfl
  | cons a rest ih =>
    have ha := h a (List.mem_cons_self a rest)
    have hrest := ih (fun b hb => h b (List.mem_cons_of_mem a hb))
    simp only [List.filter_cons, ← ha.1]
    cases hpa : p a
    · simpa using hrest
    · simp [ha.2, hrest]

theorem exBindOk {ε α β : Type} (x : α) (f : α → Except ε β) :
    ((Except.ok x : Except ε α) >>= f) = f x := rfl

theorem exBindErr {ε α β : Type} (e : ε) (f : α → Except ε β) :
    ((Except.error e : Except ε α) >>= f) = .error e := rfl

theorem exMapOk {ε α β : Type} (x : α) (f : α → β) :
    (Except.ok x : Except ε α).map f = .ok (f x) := rfl

/-- A mismatch at a shared position falsifies the zipped pairwise equality
check. -/
theorem zipAllEqFalse {l1 l2 : List String} {i : Nat} {a b : String}
    (h1 : l1[i]? = some a) (h2 : l2[i]? = some b) (hne : a ≠ b) :
    ((l1.zip l2).all (fun p => p.1 == p.2)) = false := by
  induction l1 generalizing l2 i with
  | nil => simp at h1
  | cons x xs ih =>
    cases l2 with
    | nil => simp at h2
    | cons y ys =>
      cases i with
      | zero =>
        simp only [List.getElem?_cons_zero, Option.some.injEq] at h1 h2
        subst h1; subst h2
        simp [List.all_cons, hne]
      | succ j =>
        simp only [List.getElem?_cons_succ] at h1 h2
        simp [List.all_cons, ih h1 h2]

/-! ### Claim C1 -/

set_option maxRecDepth 1000000 in
/-- Claim C1: for a single series with left timestamps `[1,2,3,4]` and right
(timestamp, value) rows `[(1,"a"),(3,"b")]`, the standard as-of join with
`skipNulls = true` returns one row per left row, in timestamp order, carrying
the right-hand values `["a","a","b","b"]`. -/
theorem C1_standard_asof_carry_forward :
    (TSDF.standardAsOfJoin leftNums rightLetters none (some "right") true
        false).map
      (fun t => (t.df.rows.map (fun r => r.get "ts"),
                 t.df.rows.map (fun r => r.get "right_value"))) =
    .ok ([.int 1, .int 2, .int 3, .int 4],
         [.str "a", .str "a", .str "b", .str "b"]) := by
  have s1 : TSDF.addPrefixToAllColumns leftNums none = .ok leftNums := rfl
  have s2 : TSDF.addPrefixToAllColumns rightLetters (some "right") =
      .ok rightLettersPfx := by decide
  have s3 : TSDF.combineTSDF leftNums rightLettersPfx "combined_ts" =
      .ok combinedLit := by decide
  have s4 : rightLettersPfx.df.cols.filter
      (fun c => notIn c combinedLit.seriesIds) =
      ["right_ts", "right_value"] := by decide
  have s5 : TSDF.getLastRightRow combinedLit "ts" ["right_ts", "right_value"]
      none true false =
      .ok { df := { cols := ["ts", "right_ts", "right_value"],
                    rows := [[("ts", .int 1), ("right_ts", .int 1),
                              ("right_value", .str "a")],
                             [("ts", .int 2), ("right_ts", .int 1),
                              ("right_value", .str "a")],
                             [("ts", .int 3), ("right_ts", .int 3),
                              ("right_value", .str "b")],
                             [("ts", .int 4), ("right_ts", .int 3),
                              ("right_value", .str "b")]] },
            tsIndex := .simple "ts", seriesIds := [], tsType := "long" } := by
    decide
  simp only [TSDF.standardAsOfJoin, s1, s2, s3, exBindOk]
  simp only [TSDF.tsColName, TSIndex.tsColName, leftNums, s4, s5, exBindOk]
  rfl

/-! ### Claim C6 -/

/-- The column-tagging chain a row undergoes in `__getTimePartitions`. -/
theorem timePartitionRowGets (tsCol : String) (r : Row) (w : Int) (f : Rat)
    (q : Rat) (hw : 0 < w)
    (hd : tsCol ≠ "ts_col_double") (hp : tsCol ≠ "ts_partition")
    (hr : tsCol ≠ "partition_remainder") (ho : tsCol ≠ "is_original")
    (hq : (r.get tsCol).castDouble = .rat q) :
    let r1 := r.set "ts_col_double" ((r.get tsCol).castDouble)
    let r2 := r1.set "ts_partition"
      (match r1.get "ts_col_double" with
       | .rat q => Value.int (w * ratTrunc (ratDivInt q w))
       | _ => Value.null)
    let r3 := r2.set "partition_remainder"
      (match r2.get "ts_col_double", r2.get "ts_partition" with
       | .rat q, .int b => Value.rat (ratDivInt (ratSubInt q b) w)
       | _, _ => Value.null)
    let r4 := r3.set "is_original" (Value.int 1)
    r4.get tsCol = r.get tsCol ∧
    r4.get "ts_col_double" = .rat q ∧
    r4.get "ts_partition" = .int (specBucket w q) ∧
    r4.get "partition_remainder" = .rat (specRemainder w q) ∧
    r4.get "is_original" = .int 1 := by
  intro r1 r2 r3 r4
  have hwne : w ≠ 0 := by omega
  have h1d : r1.get "ts_col_double" = .rat q := by
    rw [getSetSelf, hq]
  have h2d : r2.get "ts_col_double" = .rat q := by
    rw [getSetNe _ _ _ _ (by decide), h1d]
  have h2p : r2.get "ts_partition" = .int (specBucket w q) := by
    show (r1.set "ts_partition" _).get "ts_partition" = _
    rw [getSetSelf, h1d]
    dsimp only
    unfold specBucket
    rw [ratDivInt_eq_div _ _ hwne]
  have h3d : r3.get "ts_col_double" = .rat q := by
    rw [getSetNe _ _ _ _ (by decide), h2d]
  have h3p : r3.get "ts_partition" = .int (specBucket w q) := by
    rw [getSetNe _ _ _ _ (by decide), h2p]
  have h3r : r3.get "partition_remainder" = .rat (specRemainder w q) := by
    show (r2.set "partition_remainder" _).get "partition_remainder" = _
    rw [getSetSelf, h2d, h2p]
    dsimp only
    unfold specRemainder
    rw [ratDivInt_eq_div _ _ hwne, ratSubInt_eq_sub]
  refine ⟨?_, ?_, ?_, ?_, ?_⟩
  · rw [getSetNe _ _ _ _ ho, getSetNe _ _ _ _ hr, getSetNe _ _ _ _ hp,
      getSetNe _ _ _ _ hd]
  · rw [getSetNe _ _ _ _ (by decide), h3d]
  · rw [getSetNe _ _ _ _ (by decide), h3p]
  · rw [getSetNe _ _ _ _ (by decide), h3r]
  · rw [getSetSelf]

theorem ratLeB_eq_decide (a b : Rat) : ratLeB a b = decide (a ≤ b) := by
  cases hb : ratLeB a b
  · have : ¬ a ≤ b := fun h => by
      rw [← ratLeB_iff] at h
      rw [hb] at h
      exact Bool.false_ne_true h
    simp [this]
  · have : a ≤ b := (ratLeB_iff a b).mp hb
    simp [this]

theorem memWithColumnSelf (df : DF) (c : String) (f : Row → Value) :
    c ∈ (df.withColumn c f).cols := by
  unfold DF.withColumn
  split_ifs with h
  · exact h
  · simp

theorem memWithColumnMono (df : DF) (c c' : String) (f : Row → Value)
    (h : c' ∈ df.cols) : c' ∈ (df.withColumn c f).cols := by
  unfold DF.withColumn
  split_ifs with hm
  · exact h
  · exact List.mem_append_left _ h

/-- Claim C6 (counterexample): the claim's bucket formula is
`partitionWidth * floor(time / partitionWidth)`, and it asserts that exactly
the rows with remainder at least `1 - overlapFraction` are duplicated.  Spark's
`cast("integer")` truncates toward zero, so for the row at time `-5` with
width `10` and fraction `1/2` the code produces bucket `0` and no duplicate,
whereas the claimed floor formula gives bucket `-10` and (with claimed
remainder `0.5 >= 0.5`) a duplicate into the next bucket. -/
theorem C6_counterexample_negative_time :
    (negativeTs.getTimePartitions 10 (mkRat 1 2)).map
      (fun t => t.df.rows.map (fun r => (r.get "ts_partition", r.get "is_original"))) =
      .ok [(.int 0, .int 1)] ∧
    (10 : Int) * ⌊(-5 : Rat) / 10⌋ = -10 ∧ (0 : Int) ≠ -10 := by
  refine ⟨by decide, by norm_num, by decide⟩

/-- Claim C6 (amended): the partitioner assigns every numeric-time row the
bucket `partitionWidth * trunc(time / partitionWidth)` — truncation toward
zero (`cast("integer")`), which agrees with the claimed `floor` only for
non-negative quotients — tags every original row `is_original = 1`, and
appends a copy, with the next bucket and `is_original = 0`, of exactly those
rows whose remainder `(time - bucket) / partitionWidth` is at least
`1 - overlapFraction`; the result's series ids are the input's extended with
`ts_partition`. -/
theorem C6_amended_truncating_buckets (t : TSDF) (w : Int) (f : Rat) (res : TSDF)
    (hw : 0 < w)
    (htm : t.tsColName ∈ t.df.cols)
    (hname : t.tsColName ≠ "ts_col_double" ∧ t.tsColName ≠ "ts_partition" ∧
             t.tsColName ≠ "partition_remainder" ∧ t.tsColName ≠ "is_original")
    (hsyn : "ts_col_double" ∉ t.df.cols ∧ "ts_partition" ∉ t.df.cols ∧
            "partition_remainder" ∉ t.df.cols ∧ "is_original" ∉ t.df.cols)
    (hnum : ∀ r ∈ t.df.rows, (r.get t.tsColName).castDouble = .rat (specTime t r))
    (hres : t.getTimePartitions w f = .ok res) :
    res.seriesIds = t.seriesIds ++ ["ts_partition"] ∧
    res.df.rows.map (fun r =>
        (r.get t.tsColName, r.get "ts_partition", r.get "is_original")) =
      t.df.rows.map (fun r =>
        (r.get t.tsColName, Value.int (specBucket w (specTime t r)), Value.int 1)) ++
      (t.df.rows.filter (fun r =>
          decide (1 - f ≤ specRemainder w (specTime t r)))).map (fun r =>
        (r.get t.tsColName, Value.int (specBucket w (specTime t r) + w), Value.int 0)) := by
  obtain ⟨hd, hp, hr, ho⟩ := hname
  have hwne : w ≠ 0 := by omega
  unfold TSDF.getTimePartitions TSDF.mk? at hres
  dsimp only at hres
  split_ifs at hres with hval
  · rw [Except.ok.injEq] at hres
    subst hres
    refine ⟨rfl, ?_⟩
    -- per-row facts for the tagging chain
    have hrow := fun (r : Row) (hmem : r ∈ t.df.rows) =>
      timePartitionRowGets t.tsColName r w f (specTime t r) hw hd hp hr ho
        (hnum r hmem)
    obtain ⟨hs1, hs2, hs3, hs4⟩ := hsyn
    have hA : (if "ts_col_double" ∈ t.df.cols then t.df.cols
        else t.df.cols ++ ["ts_col_double"]) = t.df.cols ++ ["ts_col_double"] :=
      if_neg hs1
    have hB : (if "ts_partition" ∈ t.df.cols ++ ["ts_col_double"] then
          t.df.cols ++ ["ts_col_double"]
        else t.df.cols ++ ["ts_col_double"] ++ ["ts_partition"]) =
        t.df.cols ++ ["ts_col_double"] ++ ["ts_partition"] := by
      refine if_neg ?_
      simp [List.mem_append, hs2]
    have hC : (if "partition_remainder" ∈
          t.df.cols ++ ["ts_col_double"] ++ ["ts_partition"] then
          t.df.cols ++ ["ts_col_double"] ++ ["ts_partition"]
        else t.df.cols ++ ["ts_col_double"] ++ ["ts_partition"] ++
          ["partition_remainder"]) =
        t.df.cols ++ ["ts_col_double"] ++ ["ts_partition"] ++
          ["partition_remainder"] := by
      refine if_neg ?_
      simp [List.mem_append, hs3]
    have hD : (if "is_original" ∈ t.df.cols ++ ["ts_col_double"] ++
          ["ts_partition"] ++ ["partition_remainder"] then
          t.df.cols ++ ["ts_col_double"] ++ ["ts_partition"] ++
            ["partition_remainder"]
        else t.df.cols ++ ["ts_col_double"] ++ ["ts_partition"] ++
          ["partition_remainder"] ++ ["is_original"]) =
        t.df.cols ++ ["ts_col_double"] ++ ["ts_partition"] ++
          ["partition_remainder"] ++ ["is_original"] := by
      refine if_neg ?_
      simp [List.mem_append, hs4]
    have hE : (if "ts_partition" ∈ t.df.cols ++ ["ts_col_double"] ++
          ["ts_partition"] ++ ["partition_remainder"] ++ ["is_original"] then
          t.df.cols ++ ["ts_col_double"] ++ ["ts_partition"] ++
            ["partition_remainder"] ++ ["is_original"]
        else t.df.cols ++ ["ts_col_double"] ++ ["ts_partition"] ++
          ["partition_remainder"] ++ ["is_original"] ++ ["ts_partition"]) =
        t.df.cols ++ ["ts_col_double"] ++ ["ts_partition"] ++
          ["partition_remainder"] ++ ["is_original"] := by
      refine if_pos ?_
      simp
    have hF : (if "is_original" ∈ t.df.cols ++ ["ts_col_double"] ++
          ["ts_partition"] ++ ["partition_remainder"] ++ ["is_original"] then
          t.df.cols ++ ["ts_col_double"] ++ ["ts_partition"] ++
            ["partition_remainder"] ++ ["is_original"]
        else t.df.cols ++ ["ts_col_double"] ++ ["ts_partition"] ++
          ["partition_remainder"] ++ ["is_original"] ++ ["is_original"]) =
        t.df.cols ++ ["ts_col_double"] ++ ["ts_partition"] ++
          ["partition_remainder"] ++ ["is_original"] := by
      refine if_pos ?_
      simp
    simp only [DF.withColumn, DF.filterRows, DF.unionPositional, DF.dropCol,
      hA, hB, hC, hD, hE, hF, List.map_map, List.map_append, List.filter_map]
    congr 1
    · -- original rows
      refine List.map_congr_left ?_
      intro r hmem
      obtain ⟨g1, g2, g3, g4, g5⟩ := hrow r hmem
      simp only [Function.comp_apply]
      rw [getDropColNe _ _ _ hd, getDropColNe _ _ _ hr,
        getDropColNe _ _ _ (by decide), getDropColNe _ _ _ (by decide),
        getDropColNe _ _ _ (by decide), getDropColNe _ _ _ (by decide),
        g1, g3, g5]
    · -- duplicated rows
      refine mapFilterCongr t.df.rows ?_
      intro r hmem
      obtain ⟨g1, g2, g3, g4, g5⟩ := hrow r hmem
      constructor
      · simp only [Function.comp_apply]
        rw [g4]
        show ratLeB (ratOneSub f) (specRemainder w (specTime t r)) =
          decide (1 - f ≤ specRemainder w (specTime t r))
        rw [ratOneSub_eq, ratLeB_eq_decide]
      · simp only [Function.comp_apply]
        rw [getDropColNe _ _ _ hd, getDropColNe _ _ _ hr,
          getDropColNe _ _ _ (by decide), getDropColNe _ _ _ (by decide),
          getDropColNe _ _ _ (by decide), getDropColNe _ _ _ (by decide)]
        rw [← List.map_append, ← List.map_append, ← List.map_append,
          ← List.map_append]
        rw [getZipCols _ _ _ (by simp [htm]), getZipCols _ _ _ (by simp),
          getZipCols _ _ _ (by simp)]
        rw [getSetNe _ _ _ _ ho, getSetNe _ _ _ _ hp, g1,
          getSetNe _ "is_original" "ts_partition" _ (by decide),
          getSetSelf _ "ts_partition" _, getSetSelf _ "is_original" _, g3]

set_option maxRecDepth 1000000 in
/-- Witness for the amended C6 theorem: a concrete table with timestamps
1..4, width 10 and overlap fraction 7/10, where rows at 3 and 4 are
duplicated into the next bucket. -/
theorem C6_amended_truncating_buckets_witness :
    ∃ res : TSDF, leftNums.getTimePartitions 10 (mkRat 7 10) = .ok res ∧
      res.seriesIds = leftNums.seriesIds ++ ["ts_partition"] ∧
      res.df.rows.map (fun r =>
          (r.get leftNums.tsColName, r.get "ts_partition", r.get "is_original")) =
        leftNums.df.rows.map (fun r =>
          (r.get leftNums.tsColName,
           Value.int (specBucket 10 (specTime leftNums r)), Value.int 1)) ++
        (leftNums.df.rows.filter (fun r =>
            decide (1 - mkRat 7 10 ≤ specRemainder 10 (specTime leftNums r)))).map
          (fun r =>
            (r.get leftNums.tsColName,
             Value.int (specBucket 10 (specTime leftNums r) + 10), Value.int 0)) := by
  cases h : leftNums.getTimePartitions 10 (mkRat 7 10) with
  | error e => cases e <;> exact absurd h (by decide)
  | ok res =>
    exact ⟨res, rfl, C6_amended_truncating_buckets leftNums 10 (mkRat 7 10) res
      (by decide) (by decide) (by decide) (by decide) (by decide) h⟩

/-! ### Claim C9 -/

/-- Claim C9 (code bug): the claim states that no public operation mutates
the receiving table — in particular that after `t.withColumnRenamed(s, new)`
the original `t` still reports its original series ids.  The code aliases the
schema's series-id list and assigns into it in place, so the receiver's
series ids change: renaming the series id "station" to "site" on a concrete
table leaves the *receiver* reporting `["site"]`. -/
theorem C9_withColumnRenamed_mutates_receiver :
    (stationT.withColumnRenamedEffect "station" "site").map
      (fun p => p.2.seriesIds) = .ok ["site"] ∧ ["site"] ≠ ["station"] := by
  constructor
  · decide
  · decide

/-! ### Claim C10 -/

/-- Claim C10: for every TSDF whose structural columns are not literally
named "*", `select("*")` raises the structure-change error: the wildcard is
not expanded, so the structural columns are judged missing. -/
theorem C10_select_star_fails (t : TSDF) (h : ¬ ("*" ∈ t.structuralCols)) :
    t.select ["*"] = .error .structureChange := by
  unfold TSDF.select
  rw [if_neg]
  intro hall
  have hmem : t.tsIndex.name ∈ t.structuralCols := by
    unfold TSDF.structuralCols
    simp
  have hname := List.all_eq_true.mp hall _ hmem
  simp only [List.mem_singleton, decide_eq_true_eq] at hname
  exact h (hname ▸ hmem)

/-- Witness for C10 at a concrete table. -/
theorem C10_select_star_fails_witness :
    stationT.select ["*"] = .error .structureChange :=
  C10_select_star_fails stationT (by decide)

/-! ### Claim C3 -/

/-- Claim C3 (code bug): whenever the broadcast option is set and either
table's estimated size is below the 30 MiB threshold, `asOfJoin` — instead of
returning the broadcast-join result with the caller's prefixes applied —
executes `self.__broadcastAsOfJoin(right)`, a call missing the two required
prefix arguments, and therefore fails with a Python `TypeError` (modelled as
`missingArguments`). -/
theorem C3_broadcast_dispatch_raises (t right : TSDF) (lpfx rpfx : Option String)
    (w : Option Int) (f : Rat) (sn ssn : Bool) (lb rb : Nat)
    (hser : t.hasSameSeriesIDs right = .ok ())
    (hty : t.tsType = right.tsType)
    (hsize : lb < TSDF.bytesThreshold ∨ rb < TSDF.bytesThreshold) :
    t.asOfJoin right lpfx rpfx w f sn true ssn lb rb =
      .error .missingArguments := by
  unfold TSDF.asOfJoin
  rw [hser, exBindOk]
  unfold TSDF.validateTsColMatch
  rw [if_pos hty, exBindOk]
  have hcond : (true && (decide (lb < TSDF.bytesThreshold) ||
      decide (rb < TSDF.bytesThreshold))) = true := by
    rcases hsize with h | h <;> simp [h]
  rw [if_pos hcond]
  rfl

/-- Witness for C3 at concrete tables and sizes. -/
theorem C3_broadcast_dispatch_raises_witness :
    leftOneRow.asOfJoin rightTwoRows none (some "right") none (mkRat 1 2)
      true true false 1024 (64 * 1024 * 1024) = .error .missingArguments :=
  C3_broadcast_dispatch_raises leftOneRow rightTwoRows none (some "right")
    none (mkRat 1 2) true false 1024 (64 * 1024 * 1024) (by decide) (by decide)
    (Or.inl (by decide))

/-! ### Claim C8 -/

/-- Claim C8 (counterexample): the claim states that both the as-of join and
the union operations fail fast with an incompatible-tables error whenever the
two tables disagree on series identifiers.  In fact `TSDF.union` performs no
compatibility validation at all — the union of two tables with different
series-id columns succeeds — and the as-of join's zip-based check silently
accepts a table pair whose series-id lists disagree by a strict prefix. -/
theorem C8_incompatibility_not_always_checked :
    (stationT.union siteT).isOk = true ∧ stationT.seriesIds ≠ siteT.seriesIds ∧
    stationT.hasSameSeriesIDs stationRegionT = .ok () ∧
    stationT.seriesIds ≠ stationRegionT.seriesIds := by
  refine ⟨by decide, by decide, by decide, by decide⟩

/-- Claim C8 (amended): the as-of join fails before any join work when the
series-id lists differ at a shared position, or (with pairwise-matching
series ids) when the time-column types differ; `TSDF.union` and
`TSDF.unionByName`, by contrast, perform no compatibility validation —
`union` succeeds on any column-count-equal pair of frames, and `unionByName`
succeeds on any column-set-compatible pair (unconditionally when
`allowMissingColumns` is set), whatever the series ids or time-column
types. -/
theorem C8_amended_asOfJoin_fails_fast_union_does_not :
    (∀ (t right : TSDF) (lpfx rpfx : Option String) (w : Option Int) (f : Rat)
       (sn sq ssn : Bool) (lb rb : Nat) (i : Nat) (a b : String),
       t.seriesIds[i]? = some a → right.seriesIds[i]? = some b → a ≠ b →
       t.asOfJoin right lpfx rpfx w f sn sq ssn lb rb =
         .error .seriesIdMismatch) ∧
    (∀ (t right : TSDF) (lpfx rpfx : Option String) (w : Option Int) (f : Rat)
       (sn sq ssn : Bool) (lb rb : Nat),
       t.hasSameSeriesIDs right = .ok () → t.tsType ≠ right.tsType →
       t.asOfJoin right lpfx rpfx w f sn sq ssn lb rb =
         .error .tsTypeMismatch) ∧
    (∀ (t other : TSDF), t.df.cols.length = other.df.cols.length →
       t.union other = .ok (t.withTransformedDF (t.df.unionPositional other.df))) ∧
    (∀ (t other : TSDF),
       (t.df.cols.all (fun c => decide (c ∈ other.df.cols)) &&
        other.df.cols.all (fun c => decide (c ∈ t.df.cols))) = true →
       t.unionByName other false =
         .ok (t.withTransformedDF
           { t.df with rows := t.df.rows ++ other.df.rows })) ∧
    (∀ (t other : TSDF),
       t.unionByName other true =
         .ok (t.withTransformedDF
           { cols := t.df.cols ++
               other.df.cols.filter (fun c => notIn c t.df.cols),
             rows := t.df.rows ++ other.df.rows })) := by
  refine ⟨?_, ?_, ?_, ?_, ?_⟩
  · intro t right lpfx rpfx w f sn sq ssn lb rb i a b h1 h2 hne
    unfold TSDF.asOfJoin TSDF.hasSameSeriesIDs
    rw [if_neg]
    · rfl
    · rw [zipAllEqFalse h1 h2 hne]
      simp
  · intro t right lpfx rpfx w f sn sq ssn lb rb hser hty
    unfold TSDF.asOfJoin
    rw [hser, exBindOk]
    unfold TSDF.validateTsColMatch
    rw [if_neg hty]
    rfl
  · intro t other hlen
    unfold TSDF.union
    rw [if_pos hlen]
  · intro t other h
    unfold TSDF.unionByName
    rw [if_neg Bool.false_ne_true, if_pos h]
  · intro t other
    unfold TSDF.unionByName
    rw [if_pos rfl]

/-- Witness for the amended C8 at concrete tables: the series-id and ts-type
fail-fast prongs, and the three unchecked unions. -/
theorem C8_amended_witness :
    stationT.asOfJoin siteT none (some "right") none (mkRat 1 2) true false
      false 0 0 = .error .seriesIdMismatch ∧
    stationT.asOfJoin stationDoubleT none (some "right") none (mkRat 1 2)
      true false false 0 0 = .error .tsTypeMismatch ∧
    stationT.union siteT =
      .ok (stationT.withTransformedDF
        (stationT.df.unionPositional siteT.df)) ∧
    stationT.unionByName stationDoubleT false =
      .ok (stationT.withTransformedDF
        { stationT.df with
          rows := stationT.df.rows ++ stationDoubleT.df.rows }) ∧
    stationT.unionByName siteT true =
      .ok (stationT.withTransformedDF
        { cols := stationT.df.cols ++
            siteT.df.cols.filter (fun c => notIn c stationT.df.cols),
          rows := stationT.df.rows ++ siteT.df.rows }) := by
  refine ⟨?_, ?_, ?_, ?_, ?_⟩
  · exact C8_amended_asOfJoin_fails_fast_union_does_not.1 stationT siteT none
      (some "right") none (mkRat 1 2) true false false 0 0 0 "station" "site"
      (by decide) (by decide) (by decide)
  · exact C8_amended_asOfJoin_fails_fast_union_does_not.2.1 stationT
      stationDoubleT none (some "right") none (mkRat 1 2) true false false
      0 0 (by decide) (by decide)
  · exact C8_amended_asOfJoin_fails_fast_union_does_not.2.2.1 stationT siteT
      (by decide)
  · exact C8_amended_asOfJoin_fails_fast_union_does_not.2.2.2.1 stationT
      stationDoubleT (by decide)
  · exact C8_amended_asOfJoin_fails_fast_union_does_not.2.2.2.2 stationT
      siteT

theorem asOfJoinFractionIrrelevant (t right : TSDF) (lpfx rpfx : Option String)
    (w : Option Int) (f g : Rat) (sn sq ssn : Bool) (lb rb : Nat) :
    t.asOfJoin right lpfx rpfx w f sn sq ssn lb rb =
      t.asOfJoin right lpfx rpfx w g sn sq ssn lb rb := rfl

/-! ### Claim C7 -/

set_option maxRecDepth 1000000 in
/-- Claim C7 (code bug): the claim demands that the skew-partitioned and
standard joins produce identical results with the result's series ids equal
to the inputs'.  The skew join rebuilds its result with
`series_ids=asofDF.series_ids`, a list that still contains `ts_partition`
although that column was just dropped, so the constructor validation fails:
on a concrete pair the skew join errors with a schema mismatch while the
standard join succeeds with the inputs' (empty) series-id list. -/
theorem C7_skew_returns_schema_error :
    leftNums.skewAsOfJoin rightLetters none (some "right") 10 (mkRat 1 2)
      true false = .error .schemaMismatch ∧
    (leftNums.standardAsOfJoin rightLetters none (some "right") true
      false).isOk = true ∧
    (leftNums.standardAsOfJoin rightLetters none (some "right") true
      false).map (fun res => res.seriesIds) = .ok leftNums.seriesIds := by
  refine ⟨by decide, by decide, by decide⟩

/-! ### Claim C5 -/

set_option maxRecDepth 1000000 in
/-- Claim C5 (counterexample): the claim says the skew path uses the
caller-supplied `fraction` (default 0.5) and rejects values outside `(0, 1)`
as a configuration error.  With `fraction = 2` the call is not rejected — it
returns exactly the same result as with `fraction = 1/2`, because the
dispatch never forwards the caller's fraction at all. -/
theorem C5_counterexample_fraction_two_not_rejected :
    leftNums.asOfJoin rightLetters none (some "right") (some 10) (mkRat 2 1)
        true false false 0 0 =
      leftNums.asOfJoin rightLetters none (some "right") (some 10) (mkRat 1 2)
        true false false 0 0 ∧
    leftNums.asOfJoin rightLetters none (some "right") (some 10) (mkRat 2 1)
        true false false 0 0 ≠ .error .configurationError := by
  refine ⟨asOfJoinFractionIrrelevant leftNums rightLetters none (some "right")
    (some 10) (mkRat 2 1) (mkRat 1 2) true false false 0 0, by decide⟩

/-- Claim C5 (amended): `asOfJoin` never uses its `fraction` argument — any
two fractions give identical results — and whenever a partition width is
given (and the broadcast branch is not taken) it dispatches to the skew join
with the skew join's own `fraction=0.1` default; no range validation is
performed and no configuration error is ever raised on `fraction`'s
account. -/
theorem C5_amended_fraction_never_used :
    (∀ (t right : TSDF) (lpfx rpfx : Option String) (w : Option Int)
       (f g : Rat) (sn sq ssn : Bool) (lb rb : Nat),
       t.asOfJoin right lpfx rpfx w f sn sq ssn lb rb =
         t.asOfJoin right lpfx rpfx w g sn sq ssn lb rb) ∧
    (∀ (t right : TSDF) (lpfx rpfx : Option String) (wv : Int) (f : Rat)
       (sn ssn : Bool) (lb rb : Nat),
       t.hasSameSeriesIDs right = .ok () → t.tsType = right.tsType →
       t.asOfJoin right lpfx rpfx (some wv) f sn false ssn lb rb =
         t.skewAsOfJoin right lpfx rpfx wv TSDF.skewFractionDefault sn ssn) := by
  constructor
  · exact asOfJoinFractionIrrelevant
  · intro t right lpfx rpfx wv f sn ssn lb rb hser hty
    unfold TSDF.asOfJoin
    rw [hser, exBindOk]
    unfold TSDF.validateTsColMatch
    rw [if_pos hty, exBindOk]
    simp only [Bool.false_and]
    rw [if_neg Bool.false_ne_true]

/-- Witness for the amended C5 at concrete tables: fractions 3 and 1/3 give
the same call result, which is the skew join at the 0.1 default. -/
theorem C5_amended_witness :
    leftNums.asOfJoin rightLetters none (some "right") (some 10) (mkRat 3 1)
        true false false 0 0 =
      leftNums.asOfJoin rightLetters none (some "right") (some 10) (mkRat 1 3)
        true false false 0 0 ∧
    leftNums.asOfJoin rightLetters none (some "right") (some 10) (mkRat 3 1)
        true false false 0 0 =
      leftNums.skewAsOfJoin rightLetters none (some "right") 10
        TSDF.skewFractionDefault true false :=
  ⟨C5_amended_fraction_never_used.1 leftNums rightLetters none (some "right")
      (some 10) (mkRat 3 1) (mkRat 1 3) true false false 0 0,
   C5_amended_fraction_never_used.2 leftNums rightLetters none (some "right")
      10 (mkRat 3 1) true false 0 0 (by decide) (by decide)⟩

/-! ### Claim C2 -/

/-- Claim C2 (code bug): the claim describes `__broadcastAsOfJoin` assigning
every right row an `upper_bound` and joining left rows on a half-open
interval, but the method never gets that far: it assigns the plain dicts
returned by `__prefixedColumnMapping` to variables then used as TSDFs, and
the attribute access `right_prefixed_tsdf.ts_col` raises `AttributeError` on
*every* call — no upper bound is ever assigned and no row is ever joined. -/
theorem C2_broadcast_raises_attribute_error (t right : TSDF)
    (leftPrefix rightPrefix : String) :
    t.broadcastAsOfJoin right leftPrefix rightPrefix =
      .error .attributeError := rfl

/-! ### Claim C4 -/

theorem spliceSubseqKeys (c f s : String) (ind : Row → Value) :
    TSDF.spliceIndicatorKeys (TSIndex.subseq c f s).orderKeys ind =
      [(TSIndex.subseq c f s).tsExpr, ind, ind] := rfl

set_option maxRecDepth 1000000 in
/-- Claim C4 (counterexample): the claim says the carry-forward window is
ordered by the full combined index — primary timestamp, then the coalesced
sub-sequence when present — followed by the indicator.  On a combined frame
where the primary timestamps tie and the sub-sequence orders the left row
before the right row, the code carries the right value backwards (the
indicator, spliced in place of the sub-sequence, sorts the right row first),
while the claimed ordering yields NULL. -/
theorem C4_counterexample_subsequence_dropped :
    (c4Combined.getLastRightRow "ts" ["rts", "rval"] none true false).map
      (fun res => res.df.rows.map (fun r => (r.get "ts", r.get "rval"))) =
      .ok [(.int 1, .str "a")] ∧
    (c4Combined.getLastRightRowKeyed
        [c4Combined.tsIndex.tsExpr, c4Combined.tsIndex.subseqExpr,
         TSDF.recIndExpr] "ts" ["rts", "rval"] none true).map
      (fun res => res.df.rows.map (fun r => (r.get "ts", r.get "rval"))) =
      .ok [(.int 1, .null)] ∧
    (Value.str "a" : Value) ≠ .null := by
  refine ⟨by decide, by decide, by decide⟩

/-- Claim C4 (amended): the window ordering actually used is (combined
primary timestamp, indicator, indicator): for a sub-sequence index the
splicing (`order_by_expr.extend(order_by_expr[1:])` over the rebound
two-element list) drops the sub-sequence tie-break entirely, and the
duplicated indicator key is order-equivalent to a single one. -/
theorem C4_amended_indicator_ordering :
    (∀ (idx : TSIndex) (ind : Row → Value), idx.isSubseq = true →
       TSDF.spliceIndicatorKeys idx.orderKeys ind = [idx.tsExpr, ind, ind]) ∧
    (∀ (e i : Row → Value) (a b : Row),
       rowOrd [e, i, i] a b = rowOrd [e, i] a b) ∧
    (∀ (t : TSDF) (lts : String) (rc : List String) (tp : Option Int)
       (ig sn : Bool), t.tsIndex.isSubseq = true →
       t.getLastRightRow lts rc tp ig sn =
         t.getLastRightRowKeyed
           [t.tsIndex.tsExpr, TSDF.recIndExpr, TSDF.recIndExpr] lts rc tp
           ig) := by
  refine ⟨?_, ?_, ?_⟩
  · intro idx ind h
    cases idx with
    | simple c => exact absurd h (by simp [TSIndex.isSubseq])
    | subseq c f s => exact spliceSubseqKeys c f s ind
  · intro e i a b
    show (Value.ord (e a) (e b)).then ((Value.ord (i a) (i b)).then
        ((Value.ord (i a) (i b)).then .eq)) =
      (Value.ord (e a) (e b)).then ((Value.ord (i a) (i b)).then .eq)
    cases Value.ord (i a) (i b) <;> rfl
  · intro t lts rc tp ig sn h
    unfold TSDF.getLastRightRow
    cases hidx : t.tsIndex with
    | simple c => rw [hidx] at h; exact absurd h (by simp [TSIndex.isSubseq])
    | subseq c f s =>
      rw [spliceSubseqKeys]

/-- Witness for the amended C4 at a concrete sub-sequence index and frame. -/
theorem C4_amended_indicator_ordering_witness :
    TSDF.spliceIndicatorKeys
        (TSIndex.subseq "combined_ts" "event_ts" "seq").orderKeys
        TSDF.recIndExpr =
      [(TSIndex.subseq "combined_ts" "event_ts" "seq").tsExpr,
       TSDF.recIndExpr, TSDF.recIndExpr] ∧
    c4Combined.getLastRightRow "ts" ["rts", "rval"] none true false =
      c4Combined.getLastRightRowKeyed
        [c4Combined.tsIndex.tsExpr, TSDF.recIndExpr, TSDF.recIndExpr] "ts"
        ["rts", "rval"] none true :=
  ⟨C4_amended_indicator_ordering.1 (TSIndex.subseq "combined_ts" "event_ts"
      "seq") TSDF.recIndExpr (by decide),
   C4_amended_indicator_ordering.2.2 c4Combined "ts" ["rts", "rval"] none
      true false (by decide)⟩

end Tempo
